import Mathlib

/-!
Verification development for an excerpt of the lighteval evaluation harness.

Each Python component relevant to the checked properties is shallowly embedded
as executable Lean definitions over `List Char` / `String` / `Nat` / `Int`,
with stateful code rendered as explicit state passing.  Strings are handled as
`List Char`; Python slice and `str.replace` semantics are reproduced exactly
for the inputs the code uses (non-empty patterns, non-negative indices).
-/

/- ------------------------------------------------------------------ -/
/- Python string primitives used by the embedded code                  -/
/- ------------------------------------------------------------------ -/

/-- Fuel-driven worker for Python `str.replace`: scan left to right; at each
position, if the pattern matches, emit the replacement and continue after the
matched pattern, else keep the character.  The fuel is the input length, which
bounds the recursion for non-empty patterns. -/
def pyReplaceFuel (p r : List Char) : Nat → List Char → List Char
  | 0, l => l
  | _ + 1, [] => []
  | fuel + 1, c :: cs =>
    if p.isPrefixOf (c :: cs) then r ++ pyReplaceFuel p r fuel ((c :: cs).drop p.length)
    else c :: pyReplaceFuel p r fuel cs

/-- Python `text.replace(p, r)` for a non-empty pattern `p` (the only case the
embedded code uses; the empty pattern is mapped to the identity). -/
def pyReplace (p r l : List Char) : List Char :=
  if p = [] then l else pyReplaceFuel p r l.length l

/-- Python whitespace for `str.strip()`, restricted to the ASCII whitespace
characters (the embedded code only strips spaces produced by its own
substitutions). -/
def isPySpace (c : Char) : Bool :=
  c = ' ' || c = '\t' || c = '\n' || c = '\r' || c = '\x0b' || c = '\x0c'

/-- Python `text.strip()`: drop leading and trailing whitespace. -/
def pyStrip (l : List Char) : List Char :=
  ((l.dropWhile isPySpace).reverse.dropWhile isPySpace).reverse

/-- Helper for the single regex the HellaSwag cleanup uses,
`re.sub("\[.*?\]", "", text)`: from a position just after an opening bracket,
find the nearest closing bracket with no newline in between (Python `.` does
not match a newline), returning the remainder after it. -/
def findClose : List Char → Option (List Char)
  | [] => none
  | c :: cs => if c = ']' then some cs else if c = '\n' then none else findClose cs

/-- Fuel-driven worker for `re.sub("\[.*?\]", "", text)`: left-to-right scan;
at an opening bracket whose nearest newline-free closing bracket exists, drop
the whole bracketed fragment and continue after it; otherwise keep the
character. -/
def stripBracketsFuel : Nat → List Char → List Char
  | 0, l => l
  | _ + 1, [] => []
  | fuel + 1, c :: cs =>
    if c = '[' then
      match findClose cs with
      | some rest => stripBracketsFuel fuel rest
      | none => c :: stripBracketsFuel fuel cs
    else c :: stripBracketsFuel fuel cs

/-- `re.sub("\[.*?\]", "", text)` as used by the HellaSwag cleanup. -/
def stripBrackets (l : List Char) : List Char :=
  stripBracketsFuel l.length l

/-- Bool-valued occurrence test: does `pat` occur as a contiguous substring of
`l`?  Executable counterpart of `List.IsInfix`. -/
def hasSub (pat : List Char) : List Char → Bool
  | [] => pat.isEmpty
  | c :: cs => pat.isPrefixOf (c :: cs) || hasSub pat cs

/- ------------------------------------------------------------------ -/
/- HellaSwag template cleanup (tasks/templates/hellaswag.py)           -/
/- ------------------------------------------------------------------ -/

/-- `preprocess` from `get_hellaswag_prompt_function`, embedded step by step:
each placeholder in `dot_replacement` is replaced by a period-space, bracketed
fragments are stripped, a single left-to-right pass replaces double spaces by
single ones, the (inert) literal replacement of `"\.+"` by `"\."` is applied,
and the result is stripped of surrounding whitespace. -/
def preprocess (dotReplacement : List (List Char)) (text : List Char) : List Char :=
  let t1 := dotReplacement.foldl (fun t pat => pyReplace pat ('.' :: ' ' :: []) t) text
  let t2 := stripBrackets t1
  let t3 := pyReplace (' ' :: ' ' :: []) (' ' :: []) t2
  let t4 := pyReplace ('\\' :: '.' :: '+' :: []) ('\\' :: '.' :: []) t3
  pyStrip t4

/-- The default placeholder list of `get_hellaswag_prompt_function`. -/
def defaultDotReplacement : List (List Char) := [" [title]".toList]

/-- The cleanup with the default placeholder list `[" [title]"]`. -/
def preprocessDefault (text : List Char) : List Char :=
  preprocess defaultDotReplacement text

/- ------------------------------------------------------------------ -/
/- Test harness: FakeModel (tests/utils.py)                            -/
/- ------------------------------------------------------------------ -/

/-- State of the scripted fake model: one queue of pre-canned responses per
request kind.  `greedy_until_resp` mirrors the attribute of the same name that
`greedy_until` assigns (distinct from `greedy_until_responses`); it starts
absent, matching the Python object before the first call. -/
structure FakeModel (g l r s : Type) where
  greedy_until_responses : List g
  loglikelihood_responses : List l
  loglikelihood_rolling_responses : List r
  loglikelihood_single_token_responses : List s
  greedy_until_resp : Option (List g)
deriving Repr

/-- `FakeModel.__init__` with the given queues (`greedy_until_resp` is not
set by the constructor). -/
def FakeModel.mk' (g l r s : Type) (gq : List g) (lq : List l) (rq : List r) (sq : List s) :
    FakeModel g l r s :=
  ⟨gq, lq, rq, sq, none⟩

/-- `FakeModel.greedy_until`: returns the first `len(requests)` queued
generation responses; the remainder of the queue is assigned to the attribute
`greedy_until_resp`, leaving `greedy_until_responses` itself unchanged
(exactly as the source does). -/
def FakeModel.greedy_until (m : FakeModel g l r s) (requests : List ρ) :
    List g × FakeModel g l r s :=
  (m.greedy_until_responses.take requests.length,
   { m with greedy_until_resp := some (m.greedy_until_responses.drop requests.length) })

/-- `FakeModel.loglikelihood`: returns the first `len(requests)` queued
responses and reassigns the queue to the remainder. -/
def FakeModel.loglikelihood (m : FakeModel g l r s) (requests : List ρ) :
    List l × FakeModel g l r s :=
  (m.loglikelihood_responses.take requests.length,
   { m with loglikelihood_responses := m.loglikelihood_responses.drop requests.length })

/-- `FakeModel.loglikelihood_rolling`: same discipline on the rolling queue. -/
def FakeModel.loglikelihood_rolling (m : FakeModel g l r s) (requests : List ρ) :
    List r × FakeModel g l r s :=
  (m.loglikelihood_rolling_responses.take requests.length,
   { m with loglikelihood_rolling_responses := m.loglikelihood_rolling_responses.drop requests.length })

/-- `FakeModel.loglikelihood_single_token`: same discipline on the
single-token queue. -/
def FakeModel.loglikelihood_single_token (m : FakeModel g l r s) (requests : List ρ) :
    List s × FakeModel g l r s :=
  (m.loglikelihood_single_token_responses.take requests.length,
   { m with loglikelihood_single_token_responses := m.loglikelihood_single_token_responses.drop requests.length })

/- ------------------------------------------------------------------ -/
/- Judge client (metrics/llm_as_judge.py)                              -/
/- ------------------------------------------------------------------ -/

/-- `JudgeLM` with its backend selection string and its two function-valued
members; the three concrete backend callers (HTTP client, transformers
pipeline, vllm engine) are external effects and are abstracted as fallible
functions carried by the record.  `α` is the type of rendered prompts and raw
responses, `σ` the score type, `ε` the backend error type. -/
structure JudgeLM (α σ ε : Type) where
  model : String
  template : String → Option (List String) → String → Option String → α
  process_judge_response : α → σ
  backend : String
  call_api : α → Except ε α
  call_transformers : α → Except ε α
  call_vllm : α → Except ε α

/-- `JudgeLM.__lazy_load_client`: dispatch on the backend string exactly as
the `match` statement does; `"openai"` and `"tgi"` share the HTTP caller, and
any unrecognized backend yields the identity function `lambda x: x`. -/
def JudgeLM.lazy_load_client (j : JudgeLM α σ ε) : α → Except ε α :=
  if j.backend = "openai" ∨ j.backend = "tgi" then j.call_api
  else if j.backend = "transformers" then j.call_transformers
  else if j.backend = "vllm" then j.call_vllm
  else fun x => Except.ok x

/-- `JudgeLM.evaluate_answer`: resolve the judge function, render the prompt
through the stored template, dispatch it, post-process the raw response, and
return the triple (score, prompt, response). -/
def JudgeLM.evaluate_answer (j : JudgeLM α σ ε) (question : String) (answer : String)
    (options : Option (List String)) (gold : Option String) : Except ε (σ × α × α) :=
  let judge_function := j.lazy_load_client
  let prompt := j.template question options answer gold
  match judge_function prompt with
  | Except.error e => Except.error e
  | Except.ok response => Except.ok (j.process_judge_response response, prompt, response)

/-- `JudgeLM.API_MAX_RETRY` as set in `__init__`. -/
def API_MAX_RETRY : Nat := 3

/-- `JudgeLM.API_RETRY_SLEEP` (seconds) as set in `__init__`. -/
def API_RETRY_SLEEP : Nat := 1

/-- Observable events of one `__call_api` invocation: an attempted chat
completion call (numbered), the warning log of a caught exception, and a
sleep of the given number of seconds. -/
inductive ApiEvent where
  | call (attemptIdx : Nat)
  | warn
  | sleep (seconds : Nat)
deriving DecidableEq, Repr

/-- Worker for `JudgeLM.__call_api`: the `for _ in range(n)` loop.  `attempt i`
is the outcome of the `i`-th underlying `chat.completions.create` call (an
external effect).  Returns the overall outcome together with the ordered event
trace; on success the response content is returned immediately, on an
exception the loop warns, sleeps, and retries; when the loop is exhausted the
generic failure is raised. -/
def call_api_go (attempt : Nat → Except Unit String) (retrySleep : Nat) :
    Nat → Nat → Except String String × List ApiEvent
  | 0, _ => (Except.error "Failed to get response from the API", [])
  | n + 1, i =>
    match attempt i with
    | Except.ok s => (Except.ok s, [ApiEvent.call i])
    | Except.error _ =>
      let rest := call_api_go attempt retrySleep n (i + 1)
      (rest.1, ApiEvent.call i :: ApiEvent.warn :: ApiEvent.sleep retrySleep :: rest.2)

/-- `JudgeLM.__call_api` with the constructor's retry budget and backoff. -/
def call_api_run (attempt : Nat → Except Unit String) : Except String String × List ApiEvent :=
  call_api_go attempt API_RETRY_SLEEP API_MAX_RETRY 0

/- ------------------------------------------------------------------ -/
/- Pipeline construction check (pipeline.py)                           -/
/- ------------------------------------------------------------------ -/

/-- The exclusive-choice check at the top of `Pipeline.__init__`:
`if not (model or model_config): raise ValueError(...)`.  A supplied argument
is a (truthy) object, an absent one is `None`; the check raises exactly when
both are absent. -/
def Pipeline.init_model_arg_check (model : Option μ) (model_config : Option κ) :
    Except String Unit :=
  if !(model.isSome || model_config.isSome) then
    Except.error "Must provide either a model or model config when creating a pipeline."
  else Except.ok ()

/- ------------------------------------------------------------------ -/
/- Multilingual task catalog (tasks/multilingual/tasks.py)             -/
/- ------------------------------------------------------------------ -/

namespace Lighteval

/-- The members of the `Language` enum used by the catalog.  The enum itself
lives in `lighteval.utils.language`, outside the excerpt; only the members the
catalog names are embedded. -/
inductive Language where
  | ARABIC | ENGLISH | FRENCH | SPANISH | BULGARIAN | GERMAN | GREEK | HINDI
  | RUSSIAN | SWAHILI | THAI | TURKISH | URDU | VIETNAMESE | CHINESE
  | PUNJABI | GUJARATI | KANNADA | ASSAMESE | BENGALI | MARATHI | SANSKRIT
  | TAMIL | MALAYALAM | ORIYA | TELUGU | JAPANESE | KOREAN | ESTONIAN
  | INDONESIAN | ITALIAN | NEPALI | SINDHI | CATALAN | DANISH | BASQUE
  | CROATIAN | HUNGARIAN | ARMENIAN | ICELANDIC | NORWEGIAN | DUTCH
  | PORTUGUESE | ROMANIAN | SLOVAK | SERBIAN | SWEDISH | UKRAINIAN
deriving DecidableEq, Repr

/-- Modelled from the spec: `Language.value`, the language code each enum
member carries, used in task names such as `xnli_tr_mcf` and `pawsx_en_cf`
(the enum source is outside the excerpt; the spec's task-naming convention
fixes these codes). -/
def Language.value : Language → String
  | Language.ARABIC => "ar" | Language.ENGLISH => "en" | Language.FRENCH => "fr"
  | Language.SPANISH => "es" | Language.BULGARIAN => "bg" | Language.GERMAN => "de"
  | Language.GREEK => "el" | Language.HINDI => "hi" | Language.RUSSIAN => "ru"
  | Language.SWAHILI => "sw" | Language.THAI => "th" | Language.TURKISH => "tr"
  | Language.URDU => "ur" | Language.VIETNAMESE => "vi" | Language.CHINESE => "zh"
  | Language.PUNJABI => "pa" | Language.GUJARATI => "gu" | Language.KANNADA => "kn"
  | Language.ASSAMESE => "as" | Language.BENGALI => "bn" | Language.MARATHI => "mr"
  | Language.SANSKRIT => "sa" | Language.TAMIL => "ta" | Language.MALAYALAM => "ml"
  | Language.ORIYA => "or" | Language.TELUGU => "te" | Language.JAPANESE => "ja"
  | Language.KOREAN => "ko" | Language.ESTONIAN => "et" | Language.INDONESIAN => "id"
  | Language.ITALIAN => "it" | Language.NEPALI => "ne" | Language.SINDHI => "sd"
  | Language.CATALAN => "ca" | Language.DANISH => "da" | Language.BASQUE => "eu"
  | Language.CROATIAN => "hr" | Language.HUNGARIAN => "hu" | Language.ARMENIAN => "hy"
  | Language.ICELANDIC => "is" | Language.NORWEGIAN => "no" | Language.DUTCH => "nl"
  | Language.PORTUGUESE => "pt" | Language.ROMANIAN => "ro" | Language.SLOVAK => "sk"
  | Language.SERBIAN => "sr" | Language.SWEDISH => "sv" | Language.UKRAINIAN => "uk"

/-- Modelled from the spec: `langcodes.standardize_tag`, a boundary library
call; on the short language codes the catalog uses it is the identity. -/
def standardize_tag (tag : String) : String := tag

/-- Modelled from the spec: `LangCodeLanguage(...).language_name().lower()`
from the boundary `langcodes` library, used only inside the XNLI-2.0
repository id string. -/
def language_name_lower (lang : Language) : String :=
  match lang with
  | Language.ARABIC => "arabic" | Language.ENGLISH => "english"
  | Language.FRENCH => "french" | Language.SPANISH => "spanish"
  | Language.BULGARIAN => "bulgarian" | Language.GERMAN => "german"
  | Language.GREEK => "greek" | Language.HINDI => "hindi"
  | Language.RUSSIAN => "russian" | Language.SWAHILI => "swahili"
  | Language.THAI => "thai" | Language.TURKISH => "turkish"
  | Language.URDU => "urdu" | Language.VIETNAMESE => "vietnamese"
  | Language.CHINESE => "chinese" | Language.PUNJABI => "punjabi"
  | Language.GUJARATI => "gujarati" | Language.KANNADA => "kannada"
  | Language.ASSAMESE => "assamese" | Language.BENGALI => "bengali"
  | Language.MARATHI => "marathi" | Language.SANSKRIT => "sanskrit"
  | Language.TAMIL => "tamil" | Language.MALAYALAM => "malayalam"
  | Language.ORIYA => "oriya" | Language.TELUGU => "telugu"
  | Language.JAPANESE => "japanese" | Language.KOREAN => "korean"
  | Language.ESTONIAN => "estonian" | Language.INDONESIAN => "indonesian"
  | Language.ITALIAN => "italian" | Language.NEPALI => "nepali"
  | Language.SINDHI => "sindhi" | Language.CATALAN => "catalan"
  | Language.DANISH => "danish" | Language.BASQUE => "basque"
  | Language.CROATIAN => "croatian" | Language.HUNGARIAN => "hungarian"
  | Language.ARMENIAN => "armenian" | Language.ICELANDIC => "icelandic"
  | Language.NORWEGIAN => "norwegian" | Language.DUTCH => "dutch"
  | Language.PORTUGUESE => "portuguese" | Language.ROMANIAN => "romanian"
  | Language.SLOVAK => "slovak" | Language.SERBIAN => "serbian"
  | Language.SWEDISH => "swedish" | Language.UKRAINIAN => "ukrainian"

/-- Modelled from the spec: the three answer formulations; their lowercase
names appear as the task-name suffixes `mcf`, `cf`, `hybrid`. -/
inductive Formulation where
  | MCF | CF | Hybrid
deriving DecidableEq, Repr, Fintype

/-- `formulation.name.lower()` as used in every task name. -/
def Formulation.nameLower : Formulation → String
  | Formulation.MCF => "mcf"
  | Formulation.CF => "cf"
  | Formulation.Hybrid => "hybrid"

/-- The formulation list every family comprehension iterates over:
`[MCFFormulation(), CFFormulation(), HybridFormulation()]`. -/
def formulations : List Formulation :=
  [Formulation.MCF, Formulation.CF, Formulation.Hybrid]

/-- The declarative fields of `LightevalTaskConfig` that the multilingual
catalog sets (fields left to the class defaults are `none` / `false`). -/
structure LightevalTaskConfig where
  name : String
  suite : List String
  hf_repo : String
  hf_subset : String
  evaluation_splits : List String
  few_shots_split : Option String
  generation_size : Option Int
  hf_revision : Option String
  trust_dataset : Bool
deriving DecidableEq, Repr

/-- One entry of the `xnli_tasks` comprehension. -/
def xnli_task (language : Language) (formulation : Formulation) : LightevalTaskConfig where
  name := "xnli_" ++ language.value ++ "_" ++ formulation.nameLower
  suite := ["custom"]
  hf_repo := "facebook/xnli"
  hf_subset := standardize_tag language.value
  evaluation_splits := ["validation"]
  few_shots_split := some "train"
  generation_size := none
  hf_revision := none
  trust_dataset := false

/-- The `xnli_tasks` language list, exactly as written in the source
(`ENGLISH` and `FRENCH` each appear twice). -/
def xnli_languages : List Language :=
  [Language.ARABIC, Language.ENGLISH, Language.FRENCH, Language.SPANISH,
   Language.BULGARIAN, Language.GERMAN, Language.GREEK, Language.ENGLISH,
   Language.FRENCH, Language.HINDI, Language.RUSSIAN, Language.SWAHILI,
   Language.THAI, Language.TURKISH, Language.URDU, Language.VIETNAMESE,
   Language.CHINESE]

/-- `xnli_tasks`: the language × formulation comprehension. -/
def xnli_tasks : List LightevalTaskConfig :=
  xnli_languages.flatMap (fun language => formulations.map (xnli_task language))

/-- One entry of the `xnli2_tasks` comprehension. -/
def xnli2_task (language : Language) (formulation : Formulation) : LightevalTaskConfig where
  name := "xnli2.0_" ++ language.value ++ "_" ++ formulation.nameLower
  suite := ["custom"]
  hf_repo := "Harsit/xnli2.0_train_" ++ language_name_lower language
  hf_subset := "default"
  evaluation_splits := ["train"]
  few_shots_split := none
  generation_size := none
  hf_revision := none
  trust_dataset := false

/-- The `xnli2_tasks` language list, exactly as written in the source
(`ENGLISH` appears twice). -/
def xnli2_languages : List Language :=
  [Language.ENGLISH, Language.FRENCH, Language.PUNJABI, Language.GUJARATI,
   Language.KANNADA, Language.ASSAMESE, Language.BENGALI, Language.MARATHI,
   Language.SANSKRIT, Language.TAMIL, Language.GERMAN, Language.ENGLISH,
   Language.URDU, Language.VIETNAMESE, Language.TURKISH, Language.THAI,
   Language.SWAHILI, Language.SPANISH, Language.RUSSIAN, Language.HINDI,
   Language.GREEK, Language.CHINESE, Language.BULGARIAN, Language.ARABIC]

/-- `xnli2_tasks`. -/
def xnli2_tasks : List LightevalTaskConfig :=
  xnli2_languages.flatMap (fun language => formulations.map (xnli2_task language))

/-- One entry of the `xnli_indic_tasks` comprehension. -/
def xnli_indic_task (language : Language) (formulation : Formulation) : LightevalTaskConfig where
  name := "indicnxnli_" ++ language.value ++ "_" ++ formulation.nameLower
  suite := ["custom"]
  hf_repo := "Divyanshu/indicxnli"
  hf_subset := standardize_tag language.value
  evaluation_splits := ["validation"]
  few_shots_split := some "train"
  generation_size := some (-1)
  hf_revision := none
  trust_dataset := false

/-- The `xnli_indic_tasks` language list. -/
def xnli_indic_languages : List Language :=
  [Language.ASSAMESE, Language.BENGALI, Language.GUJARATI, Language.HINDI,
   Language.KANNADA, Language.MALAYALAM, Language.MARATHI, Language.ORIYA,
   Language.PUNJABI, Language.TAMIL, Language.TELUGU]

/-- `xnli_indic_tasks`. -/
def xnli_indic_tasks : List LightevalTaskConfig :=
  xnli_indic_languages.flatMap (fun language => formulations.map (xnli_indic_task language))

/-- One entry of the `paws_x_tasks` comprehension. -/
def paws_x_task (language : Language) (formulation : Formulation) : LightevalTaskConfig where
  name := "pawsx_" ++ language.value ++ "_" ++ formulation.nameLower
  suite := ["custom"]
  hf_repo := "google-research-datasets/paws-x"
  hf_subset := standardize_tag language.value
  evaluation_splits := ["test"]
  few_shots_split := some "train"
  generation_size := none
  hf_revision := none
  trust_dataset := false

/-- The `paws_x_tasks` language list. -/
def paws_x_languages : List Language :=
  [Language.GERMAN, Language.ENGLISH, Language.SPANISH, Language.FRENCH,
   Language.JAPANESE, Language.KOREAN, Language.CHINESE]

/-- `paws_x_tasks`. -/
def paws_x_tasks : List LightevalTaskConfig :=
  paws_x_languages.flatMap (fun language => formulations.map (paws_x_task language))

/-- One entry of the `rcb_tasks` comprehension (Russian only). -/
def rcb_task (formulation : Formulation) : LightevalTaskConfig where
  name := "rcb_" ++ Language.RUSSIAN.value ++ "_" ++ formulation.nameLower
  suite := ["custom"]
  hf_repo := "ai-forever/MERA"
  hf_subset := "rcb"
  evaluation_splits := ["train", "validation"]
  few_shots_split := none
  generation_size := none
  hf_revision := none
  trust_dataset := false

/-- `rcb_tasks`. -/
def rcb_tasks : List LightevalTaskConfig := formulations.map rcb_task

/-- One entry of the `ocnli_tasks` comprehension (Chinese only). -/
def ocnli_task (formulation : Formulation) : LightevalTaskConfig where
  name := "ocnli_" ++ Language.CHINESE.value ++ "_" ++ formulation.nameLower
  suite := ["custom"]
  hf_repo := "clue/clue"
  hf_subset := "ocnli"
  evaluation_splits := ["validation"]
  few_shots_split := some "train"
  generation_size := none
  hf_revision := none
  trust_dataset := false

/-- `ocnli_tasks`. -/
def ocnli_tasks : List LightevalTaskConfig := formulations.map ocnli_task

/-- One entry of the `cmnli_tasks` comprehension (Chinese only). -/
def cmnli_task (formulation : Formulation) : LightevalTaskConfig where
  name := "cmnli_" ++ Language.CHINESE.value ++ "_" ++ formulation.nameLower
  suite := ["custom"]
  hf_repo := "fenffef/cmnli"
  hf_subset := "default"
  evaluation_splits := ["validation"]
  few_shots_split := some "train"
  generation_size := none
  hf_revision := none
  trust_dataset := false

/-- `cmnli_tasks`. -/
def cmnli_tasks : List LightevalTaskConfig := formulations.map cmnli_task

/-- One entry of the `copa_tasks` comprehension, with the source's conditional
repository/subset selection for Arabic. -/
def copa_task (language : Language) (formulation : Formulation) : LightevalTaskConfig where
  name := "xcopa_" ++ language.value ++ "_" ++ formulation.nameLower
  suite := ["custom"]
  hf_repo :=
    if language = Language.ARABIC then "OALL/AlGhafa-Arabic-LLM-Benchmark-Translated"
    else "xcopa"
  hf_subset :=
    if language = Language.ARABIC then "copa_ext_ar"
    else standardize_tag language.value
  evaluation_splits := ["test"]
  few_shots_split := some "validation"
  generation_size := some (-1)
  hf_revision := none
  trust_dataset := false

/-- The `copa_tasks` language list, exactly as written in the source (it does
not contain `ARABIC`). -/
def copa_languages : List Language :=
  [Language.ESTONIAN, Language.INDONESIAN, Language.ITALIAN, Language.SWAHILI,
   Language.TAMIL, Language.THAI, Language.TURKISH, Language.VIETNAMESE,
   Language.CHINESE]

/-- `copa_tasks`. -/
def copa_tasks : List LightevalTaskConfig :=
  copa_languages.flatMap (fun language => formulations.map (copa_task language))

/-- One entry of the `copa_indic_tasks` comprehension. -/
def copa_indic_task (language : Language) (formulation : Formulation) : LightevalTaskConfig where
  name := "indicxcopa_" ++ language.value ++ "_" ++ formulation.nameLower
  suite := ["custom"]
  hf_repo := "ai4bharat/IndicCOPA"
  hf_subset := "translation-" ++ standardize_tag language.value
  evaluation_splits := ["test"]
  few_shots_split := none
  generation_size := none
  hf_revision := none
  trust_dataset := true

/-- The `copa_indic_tasks` language list. -/
def copa_indic_languages : List Language :=
  [Language.ASSAMESE, Language.BENGALI, Language.GUJARATI, Language.HINDI,
   Language.KANNADA, Language.MALAYALAM, Language.MARATHI, Language.NEPALI,
   Language.ORIYA, Language.PUNJABI, Language.SANSKRIT, Language.SINDHI,
   Language.TAMIL, Language.TELUGU, Language.URDU]

/-- `copa_indic_tasks`. -/
def copa_indic_tasks : List LightevalTaskConfig :=
  copa_indic_languages.flatMap (fun language => formulations.map (copa_indic_task language))

/-- One entry of the `parus_tasks` comprehension (Russian only). -/
def parus_task (formulation : Formulation) : LightevalTaskConfig where
  name := "parus_" ++ Language.RUSSIAN.value ++ "_" ++ formulation.nameLower
  suite := ["custom"]
  hf_repo := "ai-forever/MERA"
  hf_subset := "parus"
  evaluation_splits := ["train"]
  few_shots_split := some "validation"
  generation_size := none
  hf_revision := none
  trust_dataset := false

/-- `parus_tasks`. -/
def parus_tasks : List LightevalTaskConfig := formulations.map parus_task

/-- One entry of the `mlmm_hellaswag_tasks` comprehension. -/
def mlmm_hellaswag_task (lang : Language) (formulation : Formulation) : LightevalTaskConfig where
  name := "hellaswag_" ++ lang.value ++ "_" ++ formulation.nameLower
  suite := ["custom"]
  hf_repo := "jon-tow/okapi_hellaswag"
  hf_subset := standardize_tag lang.value
  evaluation_splits := ["validation"]
  few_shots_split := none
  generation_size := none
  hf_revision := some "96ed8e0dfc6172dad1d3df338d7b8ba6c1ff9d83"
  trust_dataset := true

/-- The `mlmm_hellaswag_tasks` language list. -/
def mlmm_hellaswag_languages : List Language :=
  [Language.ARABIC, Language.BENGALI, Language.CATALAN, Language.DANISH,
   Language.GERMAN, Language.SPANISH, Language.BASQUE, Language.FRENCH,
   Language.GUJARATI, Language.HINDI, Language.CROATIAN, Language.HUNGARIAN,
   Language.ARMENIAN, Language.INDONESIAN, Language.ICELANDIC, Language.ITALIAN,
   Language.KANNADA, Language.MALAYALAM, Language.MARATHI, Language.NORWEGIAN,
   Language.NEPALI, Language.DUTCH, Language.PORTUGUESE, Language.ROMANIAN,
   Language.RUSSIAN, Language.SLOVAK, Language.SERBIAN, Language.SWEDISH,
   Language.TAMIL, Language.TELUGU, Language.UKRAINIAN, Language.VIETNAMESE,
   Language.CHINESE]

/-- `mlmm_hellaswag_tasks`. -/
def mlmm_hellaswag_tasks : List LightevalTaskConfig :=
  mlmm_hellaswag_languages.flatMap (fun lang => formulations.map (mlmm_hellaswag_task lang))

/-- One entry of the `hellaswag_tur_tasks` comprehension (Turkish only, with
the extended placeholder list). -/
def hellaswag_tur_task (formulation : Formulation) : LightevalTaskConfig where
  name := "hellaswag_" ++ Language.TURKISH.value ++ "_" ++ formulation.nameLower
  suite := ["custom"]
  hf_repo := "malhajar/hellaswag_tr-v0.2"
  hf_subset := "default"
  evaluation_splits := ["validation"]
  few_shots_split := none
  generation_size := none
  hf_revision := none
  trust_dataset := false

/-- `hellaswag_tur_tasks`. -/
def hellaswag_tur_tasks : List LightevalTaskConfig := formulations.map hellaswag_tur_task

/-- One entry of the `hellaswag_tha_tasks` comprehension (Thai only). -/
def hellaswag_tha_task (formulation : Formulation) : LightevalTaskConfig where
  name := "hellaswag_" ++ Language.THAI.value ++ "_" ++ formulation.nameLower
  suite := ["custom"]
  hf_repo := "HuggingFaceFW-Dev/hellaswag_thai"
  hf_subset := "default"
  evaluation_splits := ["validation"]
  few_shots_split := some "train"
  generation_size := none
  hf_revision := none
  trust_dataset := false

/-- `hellaswag_tha_tasks`. -/
def hellaswag_tha_tasks : List LightevalTaskConfig := formulations.map hellaswag_tha_task

/-- `TASKS_TABLE`: the concatenation of all per-family lists in source order. -/
def TASKS_TABLE : List LightevalTaskConfig :=
  xnli_tasks ++ xnli2_tasks ++ xnli_indic_tasks ++ paws_x_tasks ++ rcb_tasks ++
  ocnli_tasks ++ cmnli_tasks ++ copa_tasks ++ copa_indic_tasks ++ parus_tasks ++
  mlmm_hellaswag_tasks ++ hellaswag_tur_tasks ++ hellaswag_tha_tasks

end Lighteval

/- ------------------------------------------------------------------ -/
/- Row filters and adapters of the NLI task families                   -/
/- ------------------------------------------------------------------ -/

/-- A row of the XNLI-family datasets as the adapters read it: flat `premise`,
`hypothesis` and a numeric `label` in {0 (entailment), 1 (neutral),
2 (contradiction)}. -/
structure XnliRow where
  premise : String
  hypothesis : String
  label : Int
deriving DecidableEq, Repr

/-- The rendered NLI input an adapter produces: premise, hypothesis and the
two-way gold index. -/
structure NliInput where
  premise : String
  hypothesis : String
  gold_idx : Nat
deriving DecidableEq, Repr

/-- `hf_filter` of `xnli_tasks`: `lambda line: line["label"] in [0, 2]`. -/
def xnli_hf_filter (line : XnliRow) : Bool :=
  line.label == 0 || line.label == 2

/-- The adapter of `xnli_tasks`: gold index looked up in the dict
`{0: 0, 2: 1}` (a missing key raises, modelled as `none`). -/
def xnli_adapter (line : XnliRow) : Option NliInput :=
  match line.label with
  | 0 => some ⟨line.premise, line.hypothesis, 0⟩
  | 2 => some ⟨line.premise, line.hypothesis, 1⟩
  | _ => none

/-- `hf_filter` of `xnli2_tasks` (same predicate as `xnli_tasks`). -/
def xnli2_hf_filter (line : XnliRow) : Bool :=
  line.label == 0 || line.label == 2

/-- The adapter of `xnli2_tasks` (same `{0: 0, 2: 1}` lookup). -/
def xnli2_adapter (line : XnliRow) : Option NliInput :=
  match line.label with
  | 0 => some ⟨line.premise, line.hypothesis, 0⟩
  | 2 => some ⟨line.premise, line.hypothesis, 1⟩
  | _ => none

/-- `hf_filter` of `xnli_indic_tasks`: `lambda x: int(x["label"]) in [0, 2]`. -/
def xnli_indic_hf_filter (line : XnliRow) : Bool :=
  line.label == 0 || line.label == 2

/-- The adapter of `xnli_indic_tasks` (same `{0: 0, 2: 1}` lookup). -/
def xnli_indic_adapter (line : XnliRow) : Option NliInput :=
  match line.label with
  | 0 => some ⟨line.premise, line.hypothesis, 0⟩
  | 2 => some ⟨line.premise, line.hypothesis, 1⟩
  | _ => none

/-- A row of the CMNLI dataset: flat `sentence1`, `sentence2` and a string
label. -/
structure CmnliRow where
  sentence1 : String
  sentence2 : String
  label : String
deriving DecidableEq, Repr

/-- `hf_filter` of `cmnli_tasks`:
`lambda x: x["label"] in ["entailment", "contradiction"]`. -/
def cmnli_hf_filter (x : CmnliRow) : Bool :=
  x.label == "entailment" || x.label == "contradiction"

/-- The adapter of `cmnli_tasks`: gold index looked up in the dict
`{"entailment": 0, "contradiction": 1}` (a missing key raises, modelled as
`none`). -/
def cmnli_adapter (line : CmnliRow) : Option NliInput :=
  if line.label = "entailment" then some ⟨line.sentence1, line.sentence2, 0⟩
  else if line.label = "contradiction" then some ⟨line.sentence1, line.sentence2, 1⟩
  else none

/- ------------------------------------------------------------------ -/
/- Claim theorems                                                      -/
/- ------------------------------------------------------------------ -/

/-- C1 (counterexample): the XCOPA family contains no Arabic task at all.
`ARABIC` is not in the `copa_tasks` language list, so no entry of the family
is named `xcopa_ar_*` or draws from the alternate Arabic repository/subset —
the claim's Arabic task does not exist. -/
theorem xcopa_arabic_claim_false :
    Lighteval.Language.ARABIC ∉ Lighteval.copa_languages ∧
    (∀ t ∈ Lighteval.copa_tasks,
      t.hf_repo ≠ "OALL/AlGhafa-Arabic-LLM-Benchmark-Translated" ∧
      t.hf_subset ≠ "copa_ext_ar" ∧
      t.name ≠ "xcopa_ar_mcf" ∧ t.name ≠ "xcopa_ar_cf" ∧ t.name ≠ "xcopa_ar_hybrid") := by
  decide

/-- C1 (amended): the XCOPA task builder does designate the alternate
repository/subset pair for Arabic, but Arabic is absent from the XCOPA
language list, so the dead branch is never taken and every XCOPA task in the
catalog uses the generic `xcopa` source. -/
theorem xcopa_arabic_dead_branch :
    Lighteval.Language.ARABIC ∉ Lighteval.copa_languages ∧
    (∀ t ∈ Lighteval.copa_tasks, t.hf_repo = "xcopa") ∧
    (∀ f : Lighteval.Formulation,
      (Lighteval.copa_task Lighteval.Language.ARABIC f).hf_repo =
        "OALL/AlGhafa-Arabic-LLM-Benchmark-Translated" ∧
      (Lighteval.copa_task Lighteval.Language.ARABIC f).hf_subset = "copa_ext_ar") := by
  decide

/-- C2 (counterexample): a Fake Model whose log-likelihood queue holds one
response, asked for two, does not fail: every backend operation is a total
slicing operation that returns the whole (shorter) remaining queue.  The same
holds for all four operations. -/
theorem fake_model_no_underflow_error :
    ((FakeModel.mk' Nat Nat Nat Nat [] [7] [] []).loglikelihood [0, 1]).1 = [7] ∧
    ((FakeModel.mk' Nat Nat Nat Nat [] [7] [] []).loglikelihood [0, 1]).1.length = 1 ∧
    ((FakeModel.mk' Nat Nat Nat Nat [9] [] [] []).greedy_until [0, 1]).1 = [9] ∧
    ((FakeModel.mk' Nat Nat Nat Nat [] [] [8] []).loglikelihood_rolling [0, 1]).1 = [8] ∧
    ((FakeModel.mk' Nat Nat Nat Nat [] [] [] [6]).loglikelihood_single_token [0, 1]).1 = [6] := by
  decide

/-- C2 (amended): when a call asks for more responses than remain queued, the
Fake Model does not fail; the Python slices underflow silently, so the call
returns the entire remaining queue — a list strictly shorter than the request
list. -/
theorem fake_model_truncates (m : FakeModel Nat Nat Nat Nat) (reqs : List Nat) :
    (m.greedy_until_responses.length < reqs.length →
      (m.greedy_until reqs).1 = m.greedy_until_responses ∧
      (m.greedy_until reqs).1.length < reqs.length) ∧
    (m.loglikelihood_responses.length < reqs.length →
      (m.loglikelihood reqs).1 = m.loglikelihood_responses ∧
      (m.loglikelihood reqs).1.length < reqs.length) ∧
    (m.loglikelihood_rolling_responses.length < reqs.length →
      (m.loglikelihood_rolling reqs).1 = m.loglikelihood_rolling_responses ∧
      (m.loglikelihood_rolling reqs).1.length < reqs.length) ∧
    (m.loglikelihood_single_token_responses.length < reqs.length →
      (m.loglikelihood_single_token reqs).1 = m.loglikelihood_single_token_responses ∧
      (m.loglikelihood_single_token reqs).1.length < reqs.length) := by
  refine ⟨fun h => ?_, fun h => ?_, fun h => ?_, fun h => ?_⟩ <;>
    simp only [FakeModel.greedy_until, FakeModel.loglikelihood,
      FakeModel.loglikelihood_rolling, FakeModel.loglikelihood_single_token] <;>
    rw [List.take_of_length_le (Nat.le_of_lt h)] <;> exact ⟨rfl, h⟩

/-- C2 (witness for the amended theorem): concrete queues of length one, a
request list of length two. -/
theorem fake_model_truncates_witness :
    ((FakeModel.mk' Nat Nat Nat Nat [1] [2] [3] [4]).greedy_until [0, 0]).1 = [1] ∧
    ((FakeModel.mk' Nat Nat Nat Nat [1] [2] [3] [4]).loglikelihood [0, 0]).1 = [2] ∧
    ((FakeModel.mk' Nat Nat Nat Nat [1] [2] [3] [4]).loglikelihood_rolling [0, 0]).1 = [3] ∧
    ((FakeModel.mk' Nat Nat Nat Nat [1] [2] [3] [4]).loglikelihood_single_token [0, 0]).1 = [4] := by
  have h := fake_model_truncates (FakeModel.mk' Nat Nat Nat Nat [1] [2] [3] [4]) [0, 0]
  exact ⟨(h.1 (by decide)).1, (h.2.1 (by decide)).1, (h.2.2.1 (by decide)).1,
         (h.2.2.2 (by decide)).1⟩

/-- C3 (code bug): `greedy_until` assigns the queue remainder to the fresh
attribute `greedy_until_resp` instead of `greedy_until_responses`, so the
generation queue is never consumed: two successive calls receive the same
scripted response.  The analogous `loglikelihood` call does consume its
queue, showing the intended discipline. -/
theorem fake_model_greedy_until_not_consumed :
    ((FakeModel.mk' Nat Nat Nat Nat [10, 20] [] [] []).greedy_until [0]).1 = [10] ∧
    (((FakeModel.mk' Nat Nat Nat Nat [10, 20] [] [] []).greedy_until [0]).2).greedy_until_responses
      = [10, 20] ∧
    (((FakeModel.mk' Nat Nat Nat Nat [10, 20] [] [] []).greedy_until [0]).2).greedy_until_resp
      = some [20] ∧
    ((((FakeModel.mk' Nat Nat Nat Nat [10, 20] [] [] []).greedy_until [0]).2).greedy_until [0]).1
      = [10] ∧
    (((FakeModel.mk' Nat Nat Nat Nat [] [5, 6] [] []).loglikelihood [0]).2).loglikelihood_responses
      = [6] := by
  decide

/-- A list holding the same element at positions 3 and 21 has a repeated
element. -/
theorem not_nodup_of_same_at_3_21 (l : List String) (a : String)
    (h3 : l.get? 3 = some a) (h21 : l.get? 21 = some a) : ¬ l.Nodup := by
  intro hn
  have hlt : 3 < l.length := (List.get?_eq_some.mp h3).1
  have heq : l.get? 3 = l.get? 21 := by rw [h3, h21]
  have := List.getElem?_inj hlt hn (by simpa [List.get?_eq_getElem?] using heq)
  exact absurd this (by decide)

set_option maxRecDepth 20000 in
/-- C4 (code bug): `ENGLISH` appears twice in the `xnli_tasks` language list,
so `TASKS_TABLE` carries the task name `xnli_en_mcf` at two distinct indices
and the table's names are not distinct. -/
theorem tasks_table_duplicate_names :
    (Lighteval.TASKS_TABLE.map (fun t => t.name)).get? 3 = some "xnli_en_mcf" ∧
    (Lighteval.TASKS_TABLE.map (fun t => t.name)).get? 21 = some "xnli_en_mcf" ∧
    ¬ (Lighteval.TASKS_TABLE.map (fun t => t.name)).Nodup := by
  have h3 : (Lighteval.TASKS_TABLE.map (fun t => t.name)).get? 3 = some "xnli_en_mcf" := by
    decide
  have h21 : (Lighteval.TASKS_TABLE.map (fun t => t.name)).get? 21 = some "xnli_en_mcf" := by
    decide
  exact ⟨h3, h21, not_nodup_of_same_at_3_21 _ _ h3 h21⟩

/-- C5: for any backend string other than the four recognized ones,
`evaluate_answer` succeeds and returns the triple whose response is the
rendered prompt itself (identity judge) and whose score is the
response-processing function applied to that prompt. -/
theorem judge_unknown_backend_identity (j : JudgeLM α σ ε) (question answer : String)
    (options : Option (List String)) (gold : Option String)
    (h1 : j.backend ≠ "openai") (h2 : j.backend ≠ "tgi") (h3 : j.backend ≠ "transformers")
    (h4 : j.backend ≠ "vllm") :
    j.evaluate_answer question answer options gold =
      Except.ok (j.process_judge_response (j.template question options answer gold),
        j.template question options answer gold,
        j.template question options answer gold) := by
  unfold JudgeLM.evaluate_answer JudgeLM.lazy_load_client
  simp [h1, h2, h3, h4]

/-- A concrete judge with an unrecognized backend, used by the C5 witness. -/
def judgeProbe : JudgeLM String Nat Unit where
  model := "judge-model"
  template := fun question _options answer _gold => question ++ answer
  process_judge_response := fun r => r.length
  backend := "mystery"
  call_api := fun _ => Except.error ()
  call_transformers := fun _ => Except.error ()
  call_vllm := fun _ => Except.error ()

/-- C5 (witness): the identity fallback evaluated on a concrete judge. -/
theorem judge_unknown_backend_identity_witness :
    judgeProbe.evaluate_answer "q" "a" none none = Except.ok (2, "qa", "qa") := by
  have h := judge_unknown_backend_identity judgeProbe "q" "a" none none
    (by decide) (by decide) (by decide) (by decide)
  simpa [judgeProbe] using h

/-- C7: the XNLI-family row filters accept a row exactly when its numeric
label is 0 or 2, and the adapters map label 0 to gold index 0 and label 2 to
gold index 1; the CMNLI filter retains exactly the rows labelled
`"entailment"` or `"contradiction"`, mapped to gold indices 0 and 1. -/
theorem nli_label_filter_and_gold_mapping :
    (∀ line : XnliRow, xnli_hf_filter line = true ↔ (line.label = 0 ∨ line.label = 2)) ∧
    (∀ p h : String, xnli_adapter ⟨p, h, 0⟩ = some ⟨p, h, 0⟩) ∧
    (∀ p h : String, xnli_adapter ⟨p, h, 2⟩ = some ⟨p, h, 1⟩) ∧
    (∀ line : XnliRow, xnli2_hf_filter line = true ↔ (line.label = 0 ∨ line.label = 2)) ∧
    (∀ p h : String, xnli2_adapter ⟨p, h, 0⟩ = some ⟨p, h, 0⟩) ∧
    (∀ p h : String, xnli2_adapter ⟨p, h, 2⟩ = some ⟨p, h, 1⟩) ∧
    (∀ line : XnliRow, xnli_indic_hf_filter line = true ↔ (line.label = 0 ∨ line.label = 2)) ∧
    (∀ p h : String, xnli_indic_adapter ⟨p, h, 0⟩ = some ⟨p, h, 0⟩) ∧
    (∀ p h : String, xnli_indic_adapter ⟨p, h, 2⟩ = some ⟨p, h, 1⟩) ∧
    (∀ x : CmnliRow, cmnli_hf_filter x = true ↔
      (x.label = "entailment" ∨ x.label = "contradiction")) ∧
    (∀ s1 s2 : String, cmnli_adapter ⟨s1, s2, "entailment"⟩ = some ⟨s1, s2, 0⟩) ∧
    (∀ s1 s2 : String, cmnli_adapter ⟨s1, s2, "contradiction"⟩ = some ⟨s1, s2, 1⟩) := by
  refine ⟨?_, ?_, ?_, ?_, ?_, ?_, ?_, ?_, ?_, ?_, ?_, ?_⟩ <;>
    first
      | (intro line
         simp [xnli_hf_filter, xnli2_hf_filter, xnli_indic_hf_filter, cmnli_hf_filter])
      | (intro p h; rfl)

/-- C9: the exclusive-choice check of `Pipeline.__init__` raises the
invalid-input error exactly when neither a model nor a model configuration is
supplied, and succeeds exactly when at least one of the two (possibly both)
is supplied. -/
theorem pipeline_model_check_iff (μ κ : Type) (model : Option μ) (model_config : Option κ) :
    (Pipeline.init_model_arg_check model model_config =
        Except.error "Must provide either a model or model config when creating a pipeline."
      ↔ (model = none ∧ model_config = none)) ∧
    (Pipeline.init_model_arg_check model model_config = Except.ok ()
      ↔ (model.isSome ∨ model_config.isSome)) := by
  cases model <;> cases model_config <;> simp [Pipeline.init_model_arg_check]

/-- C10: the cleanup's double-space collapse is a single left-to-right pass,
so four consecutive spaces clean to a remaining double space, and applying
the cleanup twice differs from applying it once — it is not idempotent. -/
theorem hellaswag_preprocess_not_idempotent :
    preprocessDefault "a    b".toList = "a  b".toList ∧
    hasSub "  ".toList (preprocessDefault "a    b".toList) = true ∧
    preprocessDefault (preprocessDefault "a    b".toList) ≠ preprocessDefault "a    b".toList := by
  decide

/-- C8 (counterexample): a context ending in the placeholder cleans to a bare
trailing period — the literal placeholder is gone, but no period-space
remains, because the final strip removes the substituted trailing space. -/
theorem hellaswag_placeholder_trailing_counterexample :
    hasSub " [title]".toList "a [title]".toList = true ∧
    preprocessDefault "a [title]".toList = "a.".toList ∧
    hasSub ". ".toList (preprocessDefault "a [title]".toList) = false := by
  decide

/-- Recognizer for the attempted-call events in a `__call_api` trace. -/
def isCallEvent : ApiEvent → Bool
  | ApiEvent.call _ => true
  | _ => false

/-- C6: if every underlying API call raises, `__call_api` makes exactly 3
call attempts, warning and sleeping 1 second after each failure (so in
particular between consecutive attempts), and then raises the generic
failure; if the attempts up to some `k < 3` fail and attempt `k` succeeds,
its response content is returned immediately with exactly `k + 1` calls
made. -/
theorem judge_call_api_retry (attempt : Nat → Except Unit String) :
    ((∀ i, attempt i = Except.error ()) →
      call_api_run attempt =
        (Except.error "Failed to get response from the API",
         [ApiEvent.call 0, ApiEvent.warn, ApiEvent.sleep 1,
          ApiEvent.call 1, ApiEvent.warn, ApiEvent.sleep 1,
          ApiEvent.call 2, ApiEvent.warn, ApiEvent.sleep 1])) ∧
    (∀ k s, k < 3 → (∀ i, i < k → attempt i = Except.error ()) →
      attempt k = Except.ok s →
      (call_api_run attempt).1 = Except.ok s ∧
      ((call_api_run attempt).2.countP isCallEvent) = k + 1) := by
  constructor
  · intro h
    simp [call_api_run, call_api_go, API_MAX_RETRY, API_RETRY_SLEEP, h]
  · intro k s hk hfail hok
    interval_cases k
    · simp [call_api_run, call_api_go, API_MAX_RETRY, API_RETRY_SLEEP, hok,
        List.countP, List.countP.go, isCallEvent]
    · have h0 := hfail 0 (by omega)
      simp [call_api_run, call_api_go, API_MAX_RETRY, API_RETRY_SLEEP, h0, hok,
        List.countP, List.countP.go, isCallEvent]
    · have h0 := hfail 0 (by omega)
      have h1 := hfail 1 (by omega)
      simp [call_api_run, call_api_go, API_MAX_RETRY, API_RETRY_SLEEP, h0, h1, hok,
        List.countP, List.countP.go, isCallEvent]

/-- An underlying call that always raises, for the C6 witness. -/
def attemptAlwaysFails : Nat → Except Unit String := fun _ => Except.error ()

/-- An underlying call that fails twice and succeeds on the third attempt,
for the C6 witness. -/
def attemptThird : Nat → Except Unit String :=
  fun i => if i = 2 then Except.ok "judged" else Except.error ()

/-- C6 (witness): the retry loop evaluated on the two concrete behaviors. -/
theorem judge_call_api_retry_witness :
    call_api_run attemptAlwaysFails =
      (Except.error "Failed to get response from the API",
       [ApiEvent.call 0, ApiEvent.warn, ApiEvent.sleep 1,
        ApiEvent.call 1, ApiEvent.warn, ApiEvent.sleep 1,
        ApiEvent.call 2, ApiEvent.warn, ApiEvent.sleep 1]) ∧
    (call_api_run attemptThird).1 = Except.ok "judged" ∧
    ((call_api_run attemptThird).2.countP isCallEvent) = 3 := by
  refine ⟨(judge_call_api_retry attemptAlwaysFails).1 (fun i => rfl), ?_, ?_⟩
  · exact ((judge_call_api_retry attemptThird).2 2 "judged" (by decide)
      (fun i hi => by interval_cases i <;> rfl) rfl).1
  · exact ((judge_call_api_retry attemptThird).2 2 "judged" (by decide)
      (fun i hi => by interval_cases i <;> rfl) rfl).2

/- ------------------------------------------------------------------ -/
/- Properties of the cleanup primitives (towards claim C8)             -/
/- ------------------------------------------------------------------ -/

/-- Fuel beyond the input length is irrelevant for a non-empty pattern. -/
theorem pyReplaceFuel_norm (p r : List Char) (hp : p ≠ []) :
    ∀ n l, l.length ≤ n → pyReplaceFuel p r n l = pyReplaceFuel p r l.length l := by
  have hplen : 1 ≤ p.length := by
    cases p with
    | nil => exact absurd rfl hp
    | cons a as => simp
  intro n
  induction n using Nat.strong_induction_on with
  | _ n ih =>
    intro l hl
    cases n with
    | zero =>
      cases l with
      | nil => rfl
      | cons c cs => simp at hl
    | succ m =>
      cases l with
      | nil => rfl
      | cons c cs =>
        have hcs : cs.length ≤ m := by simpa using hl
        by_cases hpre : p.isPrefixOf (c :: cs)
        · have hd : ((c :: cs).drop p.length).length ≤ cs.length := by
            simp only [List.length_drop, List.length_cons]
            omega
          have e1 : pyReplaceFuel p r (m + 1) (c :: cs)
              = r ++ pyReplaceFuel p r m ((c :: cs).drop p.length) := by
            simp [pyReplaceFuel, hpre]
          have e2 : pyReplaceFuel p r (cs.length + 1) (c :: cs)
              = r ++ pyReplaceFuel p r cs.length ((c :: cs).drop p.length) := by
            simp [pyReplaceFuel, hpre]
          rw [List.length_cons, e1, e2, ih m (Nat.lt_succ_self m) _ (le_trans hd hcs),
            ih cs.length (Nat.lt_succ_of_le hcs) _ hd]
        · have e1 : pyReplaceFuel p r (m + 1) (c :: cs) = c :: pyReplaceFuel p r m cs := by
            simp [pyReplaceFuel, hpre]
          have e2 : pyReplaceFuel p r (cs.length + 1) (c :: cs)
              = c :: pyReplaceFuel p r cs.length cs := by
            simp [pyReplaceFuel, hpre]
          rw [List.length_cons, e1, e2, ih m (Nat.lt_succ_self m) cs hcs]

/-- `pyReplace` on the empty string. -/
theorem pyReplace_nil (p r : List Char) : pyReplace p r [] = [] := by
  by_cases hp : p = [] <;> simp [pyReplace, hp, pyReplaceFuel]

/-- One-step unfolding of `pyReplace` for a non-empty pattern. -/
theorem pyReplace_cons (p r : List Char) (hp : p ≠ []) (c : Char) (cs : List Char) :
    pyReplace p r (c :: cs) =
      if p.isPrefixOf (c :: cs) then r ++ pyReplace p r ((c :: cs).drop p.length)
      else c :: pyReplace p r cs := by
  have hplen : 1 ≤ p.length := by
    cases p with
    | nil => exact absurd rfl hp
    | cons a as => simp
  unfold pyReplace
  rw [if_neg hp]
  by_cases hpre : p.isPrefixOf (c :: cs)
  · have hd : ((c :: cs).drop p.length).length ≤ cs.length := by
      simp only [List.length_drop, List.length_cons]
      omega
    rw [if_pos hpre, if_neg hp]
    have e2 : pyReplaceFuel p r (cs.length + 1) (c :: cs)
        = r ++ pyReplaceFuel p r cs.length ((c :: cs).drop p.length) := by
      simp [pyReplaceFuel, hpre]
    rw [List.length_cons, e2, pyReplaceFuel_norm p r hp cs.length _ hd]
  · rw [if_neg hpre, if_neg hp]
    have e2 : pyReplaceFuel p r (cs.length + 1) (c :: cs)
        = c :: pyReplaceFuel p r cs.length cs := by
      simp [pyReplaceFuel, hpre]
    rw [List.length_cons, e2]

/-- The remainder `findClose` returns is strictly shorter than its input. -/
theorem findClose_length : ∀ (l rest : List Char), findClose l = some rest → rest.length < l.length := by
  intro l
  induction l with
  | nil => intro rest h; simp [findClose] at h
  | cons c cs ih =>
    intro rest h
    by_cases h1 : c = ']'
    · rw [findClose, if_pos h1] at h
      injection h with h2
      subst h2
      simp
    · by_cases h2 : c = '\n'
      · rw [findClose, if_neg h1, if_pos h2] at h
        exact absurd h (by simp)
      · rw [findClose, if_neg h1, if_neg h2] at h
        exact Nat.lt_succ_of_lt (ih rest h)

/-- Fuel beyond the input length is irrelevant for `stripBracketsFuel`. -/
theorem stripBracketsFuel_norm :
    ∀ n l, l.length ≤ n → stripBracketsFuel n l = stripBracketsFuel l.length l := by
  intro n
  induction n using Nat.strong_induction_on with
  | _ n ih =>
    intro l hl
    cases n with
    | zero =>
      cases l with
      | nil => rfl
      | cons c cs => simp at hl
    | succ m =>
      cases l with
      | nil => rfl
      | cons c cs =>
        have hcs : cs.length ≤ m := by simpa using hl
        by_cases hopen : c = '['
        · cases hfc : findClose cs with
          | some rest =>
            have hr : rest.length < cs.length := findClose_length cs rest hfc
            have e1 : stripBracketsFuel (m + 1) (c :: cs) = stripBracketsFuel m rest := by
              simp [stripBracketsFuel, hopen, hfc]
            have e2 : stripBracketsFuel (cs.length + 1) (c :: cs)
                = stripBracketsFuel cs.length rest := by
              simp [stripBracketsFuel, hopen, hfc]
            rw [List.length_cons, e1, e2, ih m (Nat.lt_succ_self m) rest (by omega),
              ih cs.length (Nat.lt_succ_of_le hcs) rest (by omega)]
          | none =>
            have e1 : stripBracketsFuel (m + 1) (c :: cs) = c :: stripBracketsFuel m cs := by
              simp [stripBracketsFuel, hopen, hfc]
            have e2 : stripBracketsFuel (cs.length + 1) (c :: cs)
                = c :: stripBracketsFuel cs.length cs := by
              simp [stripBracketsFuel, hopen, hfc]
            rw [List.length_cons, e1, e2, ih m (Nat.lt_succ_self m) cs hcs]
        · have e1 : stripBracketsFuel (m + 1) (c :: cs) = c :: stripBracketsFuel m cs := by
            simp [stripBracketsFuel, hopen]
          have e2 : stripBracketsFuel (cs.length + 1) (c :: cs)
              = c :: stripBracketsFuel cs.length cs := by
            simp [stripBracketsFuel, hopen]
          rw [List.length_cons, e1, e2, ih m (Nat.lt_succ_self m) cs hcs]

/-- Unfolding: a scanned opening bracket with a reachable closing bracket
drops the whole fragment. -/
theorem stripBrackets_cons_open_some (cs rest : List Char) (h : findClose cs = some rest) :
    stripBrackets ('[' :: cs) = stripBrackets rest := by
  show stripBracketsFuel ('[' :: cs).length ('[' :: cs) = stripBracketsFuel rest.length rest
  have e : stripBracketsFuel (cs.length + 1) ('[' :: cs) = stripBracketsFuel cs.length rest := by
    simp [stripBracketsFuel, h]
  rw [List.length_cons, e,
    stripBracketsFuel_norm cs.length rest (Nat.le_of_lt (findClose_length cs rest h))]

/-- Unfolding: an opening bracket with no reachable closing bracket is kept. -/
theorem stripBrackets_cons_open_none (cs : List Char) (h : findClose cs = none) :
    stripBrackets ('[' :: cs) = '[' :: stripBrackets cs := by
  show stripBracketsFuel ('[' :: cs).length ('[' :: cs) = '[' :: stripBracketsFuel cs.length cs
  simp [stripBracketsFuel, h]

/-- Unfolding: any character other than an opening bracket is kept. -/
theorem stripBrackets_cons_of_ne (c : Char) (cs : List Char) (h : c ≠ '[') :
    stripBrackets (c :: cs) = c :: stripBrackets cs := by
  show stripBracketsFuel (c :: cs).length (c :: cs) = c :: stripBracketsFuel cs.length cs
  simp [stripBracketsFuel, h]

/-- If no closing bracket is reachable from the start of the input, none is
reachable from the start of its bracket-stripped form. -/
theorem findClose_stripBrackets_none :
    ∀ l, findClose l = none → findClose (stripBrackets l) = none := by
  intro l
  induction l with
  | nil => intro _; rfl
  | cons c cs ih =>
    intro h
    by_cases h1 : c = ']'
    · rw [findClose, if_pos h1] at h
      exact absurd h (by simp)
    · by_cases h2 : c = '\n'
      · rw [stripBrackets_cons_of_ne c cs (by rw [h2]; decide)]
        rw [findClose, if_neg h1, if_pos h2]
      · have hcs : findClose cs = none := by
          rw [findClose, if_neg h1, if_neg h2] at h
          exact h
        by_cases h3 : c = '['
        · subst h3
          rw [stripBrackets_cons_open_none cs hcs]
          rw [findClose, if_neg h1, if_neg h2]
          exact ih hcs
        · rw [stripBrackets_cons_of_ne c cs h3]
          rw [findClose, if_neg h1, if_neg h2]
          exact ih hcs

/-- Scan invariant: after any opening bracket kept in the output of
`stripBrackets`, no closing bracket is reachable (otherwise the scan would
have consumed the fragment). -/
theorem stripBrackets_open_blocked :
    ∀ (s u v : List Char), stripBrackets s = u ++ '[' :: v → findClose v = none := by
  suffices h : ∀ (n : Nat) (s u v : List Char), s.length ≤ n →
      stripBrackets s = u ++ '[' :: v → findClose v = none by
    intro s u v heq
    exact h s.length s u v (le_refl _) heq
  intro n
  induction n using Nat.strong_induction_on with
  | _ n ih =>
    intro s u v hle heq
    cases s with
    | nil =>
      have : ([] : List Char) = u ++ '[' :: v := heq
      exact absurd this.symm (by simp)
    | cons c cs =>
      have hcs : cs.length + 1 ≤ n := by simpa using hle
      by_cases h3 : c = '['
      · subst h3
        cases hfc : findClose cs with
        | some rest =>
          rw [stripBrackets_cons_open_some cs rest hfc] at heq
          have hr : rest.length < cs.length := findClose_length cs rest hfc
          exact ih rest.length (by omega) rest u v (le_refl _) heq
        | none =>
          rw [stripBrackets_cons_open_none cs hfc] at heq
          cases u with
          | nil =>
            have hv : stripBrackets cs = v := by
              simpa using heq
            rw [← hv]
            exact findClose_stripBrackets_none cs hfc
          | cons u0 u2 =>
            have h4 : stripBrackets cs = u2 ++ '[' :: v := by
              rw [List.cons_append] at heq
              injection heq with h5 h6
            exact ih cs.length (by omega) cs u2 v (le_refl _) h4
      · rw [stripBrackets_cons_of_ne c cs h3] at heq
        cases u with
        | nil =>
          have : c = '[' := by
            simpa using congrArg (fun l => l.head?) heq
          exact absurd this h3
        | cons u0 u2 =>
          have h4 : stripBrackets cs = u2 ++ '[' :: v := by
            rw [List.cons_append] at heq
            injection heq with h5 h6
          exact ih cs.length (by omega) cs u2 v (le_refl _) h4

/-- No output of `stripBrackets` contains the bracketed word `[title]`: its
opening bracket would have a reachable closing bracket, contradicting the
scan invariant. -/
theorem stripBrackets_no_title (sIn : List Char) :
    ¬ ("[title]".toList <:+: stripBrackets sIn) := by
  rintro ⟨u, w, heq⟩
  have hshape : "[title]".toList = '[' :: "title]".toList := rfl
  rw [hshape, List.append_assoc, List.cons_append] at heq
  have hnone := stripBrackets_open_blocked sIn u ("title]".toList ++ w) heq.symm
  simp [findClose] at hnone

/-- A word containing no character of `r` that occurs in `r ++ Y` occurs in
`Y`. -/
theorem sub_append_elim (w : List Char) (hw : w ≠ []) :
    ∀ r Y, (∀ c ∈ r, c ∉ w) → w <:+: r ++ Y → w <:+: Y := by
  intro r
  induction r with
  | nil =>
    intro Y _ h
    simpa using h
  | cons x r2 ih =>
    intro Y hrw h
    rw [List.cons_append] at h
    cases List.infix_cons_iff.mp h with
    | inl hpre =>
      cases w with
      | nil => exact absurd rfl hw
      | cons a w2 =>
        obtain ⟨s, hs⟩ := hpre
        have hax : a = x := by
          simpa using congrArg (fun l => l.head?) hs
        have hmem : x ∈ a :: w2 := by
          rw [← hax]
          exact List.mem_cons_self a w2
        exact absurd hmem (hrw x (List.mem_cons_self x r2))
    | inr hsub =>
      exact ih Y (fun c hc => hrw c (List.mem_cons_of_mem x hc)) hsub

/-- If the replacement string is non-empty and shares no character with `w`,
a prefix of the output of `pyReplace` whose characters all lie in `w` is a
prefix of the input. -/
theorem pyReplace_start_elim (p r w : List Char) (hp : p ≠ []) (hr : r ≠ [])
    (hrw : ∀ c ∈ r, c ∉ w) :
    ∀ n l w2, l.length ≤ n → (∀ c ∈ w2, c ∈ w) → w2 <+: pyReplace p r l → w2 <+: l := by
  intro n
  induction n using Nat.strong_induction_on with
  | _ n ih =>
    intro l w2 hle hsubw hpre
    cases l with
    | nil =>
      rw [pyReplace_nil] at hpre
      exact hpre
    | cons c cs =>
      have hlen : cs.length < n := by simp at hle; omega
      rw [pyReplace_cons p r hp c cs] at hpre
      by_cases hmatch : p.isPrefixOf (c :: cs)
      · rw [if_pos hmatch] at hpre
        cases w2 with
        | nil => exact List.nil_prefix
        | cons a w3 =>
          cases hrr : r with
          | nil => exact absurd hrr hr
          | cons x r2 =>
            rw [hrr, List.cons_append] at hpre
            obtain ⟨s, hs⟩ := hpre
            have hax : a = x := by
              simpa using congrArg (fun l => l.head?) hs
            have hmem : a ∈ w := hsubw a (List.mem_cons_self a w3)
            rw [hax] at hmem
            exact absurd hmem (hrw x (by rw [hrr]; exact List.mem_cons_self x r2))
      · rw [if_neg hmatch] at hpre
        cases w2 with
        | nil => exact List.nil_prefix
        | cons a w3 =>
          obtain ⟨s, hs⟩ := hpre
          rw [List.cons_append] at hs
          injection hs with h1 h2
          have h5 : w3 <+: pyReplace p r cs := ⟨s, h2⟩
          have h6 := ih cs.length hlen cs w3 (le_refl _)
            (fun ch hch => hsubw ch (List.mem_cons_of_mem a hch)) h5
          obtain ⟨t, ht⟩ := h6
          exact ⟨t, by rw [List.cons_append, h1, ht]⟩

/-- If the replacement string is non-empty and shares no character with the
non-empty word `w`, then `w` occurring in the output of `pyReplace` occurred
in the input: the pass cannot create an occurrence of `w`. -/
theorem pyReplace_sub_elim (p r w : List Char) (hp : p ≠ []) (hr : r ≠ [])
    (hrw : ∀ c ∈ r, c ∉ w) (hw : w ≠ []) :
    ∀ n l, l.length ≤ n → w <:+: pyReplace p r l → w <:+: l := by
  have hplen : 1 ≤ p.length := by
    cases p with
    | nil => exact absurd rfl hp
    | cons a as => simp
  intro n
  induction n using Nat.strong_induction_on with
  | _ n ih =>
    intro l hle hsub
    cases l with
    | nil =>
      rw [pyReplace_nil] at hsub
      exact absurd (List.eq_nil_of_infix_nil hsub) hw
    | cons c cs =>
      have hlen : cs.length < n := by simp at hle; omega
      rw [pyReplace_cons p r hp c cs] at hsub
      by_cases hmatch : p.isPrefixOf (c :: cs)
      · rw [if_pos hmatch] at hsub
        have h2 := sub_append_elim w hw r _ hrw hsub
        have hd : ((c :: cs).drop p.length).length ≤ cs.length := by
          simp only [List.length_drop, List.length_cons]
          omega
        have h3 := ih cs.length hlen _ hd h2
        exact h3.trans (List.drop_suffix p.length (c :: cs)).isInfix
      · rw [if_neg hmatch] at hsub
        cases List.infix_cons_iff.mp hsub with
        | inl hpre =>
          cases hwe : w with
          | nil => exact absurd hwe hw
          | cons a w3 =>
            rw [hwe] at hpre
            obtain ⟨s, hs⟩ := hpre
            rw [List.cons_append] at hs
            injection hs with h1 h2
            have h5 : w3 <+: pyReplace p r cs := ⟨s, h2⟩
            have h6 := pyReplace_start_elim p r w hp hr hrw cs.length cs w3 (le_refl _)
              (fun ch hch => by rw [hwe]; exact List.mem_cons_of_mem a hch) h5
            obtain ⟨t, ht⟩ := h6
            refine List.IsPrefix.isInfix ⟨t, ?_⟩
            rw [List.cons_append, h1, ht]
        | inr hsub2 =>
          have h3 := ih cs.length hlen cs (le_refl _) hsub2
          exact h3.trans (List.suffix_cons c cs).isInfix

/-- The stripped string is a contiguous substring of the input. -/
theorem pyStrip_sub (l : List Char) : pyStrip l <:+: l := by
  have h1 : l.dropWhile isPySpace <:+ l := List.dropWhile_suffix isPySpace
  have h2 : (l.dropWhile isPySpace).reverse.dropWhile isPySpace
      <:+ (l.dropWhile isPySpace).reverse := List.dropWhile_suffix isPySpace
  have h3 : ((l.dropWhile isPySpace).reverse.dropWhile isPySpace).reverse
      <+: l.dropWhile isPySpace := by
    rw [← List.reverse_suffix]
    simpa using h2
  exact h3.isInfix.trans h1.isInfix

/-- `hasSub` decides contiguous-substring occurrence. -/
theorem hasSub_iff (pat : List Char) : ∀ l, hasSub pat l = true ↔ pat <:+: l := by
  intro l
  induction l with
  | nil =>
    simp only [hasSub, List.isEmpty_iff]
    constructor
    · rintro rfl
      exact List.infix_rfl
    · exact List.eq_nil_of_infix_nil
  | cons c cs ih =>
    simp only [hasSub, Bool.or_eq_true, ih, List.isPrefixOf_iff_prefix]
    exact Iff.symm List.infix_cons_iff

/-- No output of the default HellaSwag cleanup contains the bracketed word
`[title]`: the bracket-stripping pass removes every occurrence, and the later
space-collapsing, dot-literal and strip passes cannot create one. -/
theorem preprocess_no_title (s : List Char) :
    ¬ ("[title]".toList <:+: preprocessDefault s) := by
  intro h
  have hdef : preprocessDefault s =
      pyStrip (pyReplace ('\\' :: '.' :: '+' :: []) ('\\' :: '.' :: [])
        (pyReplace (' ' :: ' ' :: []) (' ' :: [])
          (stripBrackets (pyReplace " [title]".toList ('.' :: ' ' :: []) s)))) := rfl
  rw [hdef] at h
  have h1 := h.trans (pyStrip_sub _)
  have h2 := pyReplace_sub_elim ('\\' :: '.' :: '+' :: []) ('\\' :: '.' :: [])
    "[title]".toList (by decide) (by decide) (by decide) (by decide) _ _ (le_refl _) h1
  have h3 := pyReplace_sub_elim (' ' :: ' ' :: []) (' ' :: [])
    "[title]".toList (by decide) (by decide) (by decide) (by decide) _ _ (le_refl _) h2
  exact stripBrackets_no_title _ h3

/-- C8 (amended): the cleaned text never contains the literal `" [title]"`
placeholder; a period-space stands in its place with the doubled space
collapsed when text follows, but when the substitution lands at the end of
the string the final trim removes the trailing space, leaving only the
period. -/
theorem hellaswag_placeholder_removed_amended :
    (∀ s : List Char, hasSub " [title]".toList (preprocessDefault s) = false) ∧
    preprocessDefault "a [title] b".toList = "a. b".toList ∧
    preprocessDefault "a [title]".toList = "a.".toList := by
  refine ⟨?_, by decide, by decide⟩
  intro s
  rw [Bool.eq_false_iff]
  intro htrue
  have hin : " [title]".toList <:+: preprocessDefault s := (hasSub_iff _ _).mp htrue
  have hsmall : "[title]".toList <:+: " [title]".toList := ⟨[' '], [], rfl⟩
  exact preprocess_no_title s (hsmall.trans hin)
